import Mathlib

/-!
Shallow embedding of the fetch/parse/assemble core of `currency_dashboard.py`
(an exchange-rate dashboard) together with proofs of its specified properties.

Python strings are modelled as `List Char`, Python floats as `ℚ` (the rate
values appearing in the claims are exact decimal literals), a function that may
raise as one returning `Except` or an explicit error component, and the remote
network as an explicit list of per-request outcomes fed to the function.
-/

namespace CurrencyDashboard

/-- Python strings, modelled as lists of characters. -/
abbrev Str := List Char

/-- Whitespace characters removed by Python `str.strip()` (ASCII subset). -/
def isPySpace (c : Char) : Bool :=
  c = ' ' || c = '\t' || c = '\n' || c = '\r' || c = '\x0b' || c = '\x0c'

/-- Python `str.strip()`: drop whitespace from both ends. -/
def pystrip (s : Str) : Str :=
  ((s.dropWhile isPySpace).reverse.dropWhile isPySpace).reverse

/-- ASCII decimal digit test. -/
def isDigitChar (c : Char) : Bool := '0' ≤ c && c ≤ '9'

/-- Split a character list at every occurrence of `sep` (like Python
`str.split(sep)`): always returns at least one (possibly empty) piece. -/
def splitOnChar (sep : Char) : Str → List Str
  | [] => [[]]
  | c :: cs =>
    if c = sep then [] :: splitOnChar sep cs
    else
      match splitOnChar sep cs with
      | s :: ss => (c :: s) :: ss
      | [] => [[c]]

/-- Numeric value of a digit string (most significant first). -/
def digitsVal (l : Str) : Nat := l.foldl (fun a c => a * 10 + (c.toNat - 48)) 0

/-- Parse an unsigned decimal literal `digits[.digits]` (at least one digit
overall) into an exact rational. -/
def parseUnsignedDec (s : Str) : Option ℚ :=
  match splitOnChar '.' s with
  | [ip] =>
    if ip ≠ [] ∧ ip.all isDigitChar then some (mkRat (digitsVal ip) 1) else none
  | [ip, fp] =>
    if (ip ≠ [] ∨ fp ≠ []) ∧ ip.all isDigitChar ∧ fp.all isDigitChar then
      some (mkRat (digitsVal ip * 10 ^ fp.length + digitsVal fp) (10 ^ fp.length))
    else none
  | _ => none

/-- Strip one optional leading sign, returning (isNegative, rest). -/
def parseSign : Str → Bool × Str
  | '+' :: r => (false, r)
  | '-' :: r => (true, r)
  | s => (false, s)

/-- Parse a (signed) integer exponent part. -/
def parseExpPart (s : Str) : Option ℤ :=
  let p := parseSign s
  if p.2 ≠ [] ∧ p.2.all isDigitChar then
    some (if p.1 then -(digitsVal p.2 : ℤ) else (digitsVal p.2 : ℤ))
  else none

/-- Model of Python `float(s)` on plain decimal literals with optional sign,
decimal point and exponent; `none` models a raised `ValueError`. -/
def pyfloat (s : Str) : Option ℚ :=
  let p := parseSign s
  let body := p.2.map (fun c => if c = 'E' then 'e' else c)
  match splitOnChar 'e' body with
  | [m] => (parseUnsignedDec m).map (fun q => if p.1 then -q else q)
  | [m, e] =>
    match parseUnsignedDec m, parseExpPart e with
    | some q, some ex =>
      some ((if p.1 then -q else q) *
        (if 0 ≤ ex then mkRat (10 ^ ex.toNat) 1 else mkRat 1 (10 ^ (-ex).toNat)))
    | _, _ => none
  | _ => none

/-! ## Live table parser (`parse_exchange_table`)

A BeautifulSoup document is modelled by whether the looked-up
`table.tablesorter.ratesTable` is present, and a table by its `tr` rows, each
row by its `td` cells.  Extracting `.text` from a cell may raise an arbitrary
exception in Python, so a cell carries `Except PyErr Str`. -/

/-- A Python exception: `float()` raises `ValueError`, anything else that the
inner `except ValueError` clause does not catch is `other`. -/
inductive PyErr
  | valueError
  | other
  deriving DecidableEq, Repr

instance {ε α : Type} [DecidableEq ε] [DecidableEq α] : DecidableEq (Except ε α) := fun a b =>
  match a, b with
  | Except.ok x, Except.ok y =>
    if h : x = y then isTrue (by rw [h]) else isFalse (by simp [h])
  | Except.error x, Except.error y =>
    if h : x = y then isTrue (by rw [h]) else isFalse (by simp [h])
  | Except.ok _, Except.error _ => isFalse (by simp)
  | Except.error _, Except.ok _ => isFalse (by simp)

/-- A `td` cell: its `.text` extraction either yields a string or raises. -/
structure PyCell where
  text : Except PyErr Str
  deriving DecidableEq, Repr

instance : Inhabited PyCell := ⟨⟨Except.ok []⟩⟩

/-- A `tr` row: its list of `td` cells. -/
structure PyRow where
  cells : List PyCell
  deriving DecidableEq, Repr

/-- A parsed document: `find("table", class_="tablesorter ratesTable")`
either finds a table (its `tr` rows) or not. -/
structure Soup where
  table : Option (List PyRow)
  deriving DecidableEq, Repr

/-- A row of the resulting DataFrame: `{"Currency": ..., "Rate": ...}`. -/
structure LiveRecord where
  currency : Str
  rate : ℚ
  deriving DecidableEq, Repr

/-- Warnings/errors emitted through the logger while parsing. -/
inductive ParseWarn
  | tableNotFound
  | badRate (currency : Str)
  | errorCaught
  deriving DecidableEq, Repr

/-- Result of the parse: the DataFrame rows plus the logged warnings. -/
structure ParseOut where
  records : List LiveRecord
  warnings : List ParseWarn
  deriving DecidableEq, Repr

/-- The argument handed to `float`: `cols[1].text.strip().replace(',', '')`. -/
def cleanRate (s : Str) : Str := (pystrip s).filter (fun c => c ≠ ',')

/-- The `for row in rows` loop body of `parse_exchange_table`: returns the
accumulated records, the logged per-row warnings, and the exception (if any)
that escaped the loop to the outer `except`.  Rows with fewer than two cells
are skipped; a `ValueError` while computing the rate is caught in the loop
(`continue`); any exception while reading `cols[0].text`, and any
non-`ValueError` while reading `cols[1].text`, escapes. -/
def parseRows : List PyRow → List LiveRecord × List ParseWarn × Option PyErr
  | [] => ([], [], none)
  | row :: rest =>
    if 2 ≤ row.cells.length then
      match (row.cells.getD 0 default).text with
      | Except.error e => ([], [], some e)
      | Except.ok t0 =>
        let currency := pystrip t0
        match (row.cells.getD 1 default).text with
        | Except.error PyErr.valueError =>
          let r := parseRows rest
          (r.1, ParseWarn.badRate currency :: r.2.1, r.2.2)
        | Except.error PyErr.other => ([], [], some PyErr.other)
        | Except.ok t1 =>
          match pyfloat (cleanRate t1) with
          | some rate =>
            let r := parseRows rest
            (⟨currency, rate⟩ :: r.1, r.2.1, r.2.2)
          | none =>
            let r := parseRows rest
            (r.1, ParseWarn.badRate currency :: r.2.1, r.2.2)
    else parseRows rest

/-- `parse_exchange_table(soup)`.  The codomain `Except PyErr ParseOut` is the
embedding of "a Python call that may raise"; the function's own `try/except`
turns every escaping exception into an empty DataFrame, and a missing table
into an empty DataFrame plus a logged warning.  The first row (header) of a
found table is skipped. -/
def parse_exchange_table (soup : Soup) : Except PyErr ParseOut :=
  match soup.table with
  | none => Except.ok ⟨[], [ParseWarn.tableNotFound]⟩
  | some trs =>
    let rows := trs.drop 1
    match parseRows rows with
    | (recs, warns, none) => Except.ok ⟨recs, warns⟩
    | (_, warns, some _) => Except.ok ⟨[], warns ++ [ParseWarn.errorCaught]⟩

/-- Does every cell of the row extract its text without raising? -/
def pureRow (row : PyRow) : Bool :=
  row.cells.all (fun c => match c.text with | Except.ok _ => true | _ => false)

/-- Text of a cell when it does not raise (default `[]`). -/
def cellText (c : PyCell) : Str :=
  match c.text with
  | Except.ok s => s
  | Except.error _ => []

/-- A row the parser turns into a record: at least two cells and a rate cell
that parses as a float after trimming and stripping thousands-separators. -/
def wellFormedRow (row : PyRow) : Bool :=
  2 ≤ row.cells.length &&
    (pyfloat (cleanRate (cellText (row.cells.getD 1 default)))).isSome

/-- The record produced from a well-formed row. -/
def recOfRow (row : PyRow) : LiveRecord :=
  ⟨pystrip (cellText (row.cells.getD 0 default)),
   (pyfloat (cleanRate (cellText (row.cells.getD 1 default)))).getD 0⟩

/-- The data-model invariant for `LiveRate`: 3-letter uppercase code and a
strictly positive rate. -/
def liveRateInvariant (r : LiveRecord) : Bool :=
  r.currency.length = 3 && r.currency.all (fun c => 'A' ≤ c && c ≤ 'Z') &&
    decide (0 < r.rate)

/-! ## Dates (`generate_date_list`, `format_date`)

`datetime.now()` is modelled as an explicit `today : Date` parameter;
`timedelta(days=i)` subtraction as `i` applications of the previous-calendar-day
function; `strftime("%Y-%m-%d")` as zero-padded decimal rendering (the
`datetime` year always lies in 1..9999). -/

/-- A Gregorian calendar date (year-month-day). -/
structure Date where
  year : Nat
  month : Nat
  day : Nat
  deriving DecidableEq, Repr

/-- Gregorian leap-year rule. -/
def isLeap (y : Nat) : Bool := y % 4 = 0 && (y % 100 ≠ 0 || y % 400 = 0)

/-- Number of days in a month. -/
def daysInMonth (y m : Nat) : Nat :=
  if m = 2 then (if isLeap y then 29 else 28)
  else if m = 4 ∨ m = 6 ∨ m = 9 ∨ m = 11 then 30
  else 31

/-- The previous calendar day. -/
def predDate (d : Date) : Date :=
  if 1 < d.day then ⟨d.year, d.month, d.day - 1⟩
  else if 1 < d.month then ⟨d.year, d.month - 1, daysInMonth d.year (d.month - 1)⟩
  else ⟨d.year - 1, 12, 31⟩

/-- `today - timedelta(days=n)`. -/
def subDays (d : Date) : Nat → Date
  | 0 => d
  | n + 1 => predDate (subDays d n)

/-- The decimal digit character for `k % 10`. -/
def digitChar (k : Nat) : Char :=
  ['0', '1', '2', '3', '4', '5', '6', '7', '8', '9'].getD (k % 10) '9'

/-- Zero-padded 2-digit rendering (`%m`, `%d`). -/
def pad2 (n : Nat) : Str := [digitChar (n / 10), digitChar n]

/-- Zero-padded 4-digit rendering (`%Y` for years up to 9999). -/
def pad4 (n : Nat) : Str :=
  [digitChar (n / 1000), digitChar (n / 100), digitChar (n / 10), digitChar n]

/-- `format_date`: render a date as `YYYY-MM-DD` (strftime `"%Y-%m-%d"`). -/
def format_date (d : Date) : Str :=
  pad4 d.year ++ '-' :: (pad2 d.month ++ '-' :: pad2 d.day)

/-- Shape check for the `YYYY-MM-DD` format: ten characters, digits in the
date positions and dashes at positions 4 and 7. -/
def isISO (s : Str) : Bool :=
  match s with
  | [a, b, c, d, h1, e, f, h2, g, i] =>
    [a, b, c, d, e, f, g, i].all isDigitChar && h1 = '-' && h2 = '-'
  | _ => false

/-- `generate_date_list(days)`: the dates `today - i` for `i` in
`range(days)`, formatted, then reversed (oldest first). -/
def generate_date_list (today : Date) (days : Nat) : List Str :=
  ((List.range days).map (fun i => format_date (subDays today i))).reverse

/-! ## Historical series assembler (`fetch_historical_data`)

The remote endpoint's behaviour on each per-day request is an explicit input:
either the HTTP request raises (`netFail`), or a body arrives whose JSON
decoding fails or lacks a `"rates"` key (`badPayload`, which `safe_json_load`
and `.get("rates", {})` turn into an empty mapping), or a `rates` mapping
arrives (`ok`).  The `time.sleep(0.1)` call and the logged per-day warning are
recorded as events so that temporal claims are statable. -/

/-- Outcome of one per-day request, as seen by the loop body. -/
inductive DayOutcome
  | netFail
  | badPayload
  | ok (rates : List (Str × ℚ))
  deriving DecidableEq, Repr

/-- A row of the historical DataFrame. -/
structure HistRecord where
  date : Str
  currency : Str
  rate : ℚ
  deriving DecidableEq, Repr

/-- Observable side effects of the per-day loop. -/
inductive HistEvent
  | sleep100ms
  | warnDayFailed (date : Str)
  deriving DecidableEq, Repr

/-- One iteration of the per-day loop: on an exception from the request the
`except` branch logs a warning and `continue`s (note: without sleeping); on a
received body the records (possibly none) are appended and then
`time.sleep(0.1)` runs. -/
def processDay (date : Str) (o : DayOutcome) : List HistRecord × List HistEvent :=
  match o with
  | DayOutcome.netFail => ([], [HistEvent.warnDayFailed date])
  | DayOutcome.badPayload => ([], [HistEvent.sleep100ms])
  | DayOutcome.ok rates =>
    (rates.map (fun p => ⟨date, p.1, p.2⟩), [HistEvent.sleep100ms])

/-- The per-day loop over the (date, outcome) pairs, appending records and
events in order. -/
def assembleDays : List (Str × DayOutcome) → List HistRecord × List HistEvent
  | [] => ([], [])
  | (d, o) :: rest =>
    let step := processDay d o
    let r := assembleDays rest
    (step.1 ++ r.1, step.2 ++ r.2)

/-- The fixed list of target currencies in `fetch_historical_data`. -/
def targetList : List Str :=
  [['E','U','R'], ['U','S','D'], ['J','P','Y'], ['G','B','P'],
   ['T','R','Y'], ['C','A','D'], ['I','N','R'], ['C','N','Y']]

/-- `target_currencies` after the `if base in ...: remove(base)` step. -/
def target_currencies (base : Str) : List Str :=
  if base ∈ targetList then targetList.erase base else targetList

/-- The eight base currencies offered by the sidebar selectbox. -/
def supportedBases : List Str :=
  [['U','S','D'], ['E','U','R'], ['G','B','P'], ['J','P','Y'],
   ['T','R','Y'], ['I','N','R'], ['C','N','Y'], ['C','A','D']]

/-- `fetch_historical_data(base, days)` run against a given `today` and a list
of per-day network outcomes (one per generated date): the flattened records
and the emitted events. -/
def fetch_historical_data (today : Date) (days : Nat) (net : List DayOutcome) :
    List HistRecord × List HistEvent :=
  assembleDays ((generate_date_list today days).zip net)

/-! ## HTTP client (`requests_get_with_retry`)

The retry loop itself lives in the `urllib3` `Retry` machinery that the
source configures (`total=retries`, `status_forcelist=[429,500,502,503,504]`);
it is modelled from the spec's contract: an attempt whose status is in the
forcelist consumes one retry, a non-forcelist status is returned and then
`raise_for_status()` raises on 4xx/5xx, and exhaustion raises a retry error
(a `NetworkError` in the spec's taxonomy).  The endpoint is a function from
the 0-based attempt index to the HTTP status of that attempt. -/

/-- The configured retryable status codes. -/
def status_forcelist : List Nat := [429, 500, 502, 503, 504]

/-- Result of the whole fetch. -/
inductive FetchResult
  | success (status : Nat)
  | httpError (status : Nat)
  | netError
  deriving DecidableEq, Repr

/-- The attempt loop: `budget` retries remain, `k` attempts were already made.
Returns the result and the total number of attempts performed. -/
def retryLoop (endpoint : Nat → Nat) : Nat → Nat → FetchResult × Nat
  | budget, k =>
    let code := endpoint k
    if code ∈ status_forcelist then
      match budget with
      | 0 => (FetchResult.netError, k + 1)
      | b + 1 => retryLoop endpoint b (k + 1)
    else if 400 ≤ code then (FetchResult.httpError code, k + 1)
    else (FetchResult.success code, k + 1)

/-- `requests_get_with_retry(url, retries)` against a given endpoint. -/
def requests_get_with_retry (endpoint : Nat → Nat) (retries : Nat) :
    FetchResult × Nat :=
  retryLoop endpoint retries 0

/-! ## CSV export (`convert_df_to_csv`) and re-parsing

`df.to_csv(index=False)` on the historical DataFrame: the header line
`Date,Currency,Rate`, then one line per record, fields rendered by pandas
(floats at full precision, so a field is reproduced exactly as a string),
each line terminated by a newline.  The re-parser below follows the spec's
words: split the text into lines, match the header, split each line on
commas. -/

/-- A CSV row as its three rendered fields (date, currency, rate). -/
abbrev CsvTriple := Str × Str × Str

/-- The header line written for the historical DataFrame. -/
def histHeader : Str :=
  ['D','a','t','e',',','C','u','r','r','e','n','c','y',',','R','a','t','e']

/-- Render one record line: fields joined by commas. -/
def renderHistRow (r : CsvTriple) : Str := r.1 ++ ',' :: (r.2.1 ++ ',' :: r.2.2)

/-- `convert_df_to_csv`: header line then one line per record, every line
newline-terminated. -/
def convert_df_to_csv (rows : List CsvTriple) : Str :=
  histHeader ++ '\n' :: rows.foldr (fun r acc => renderHistRow r ++ '\n' :: acc) []

/-- Modelled from the spec: re-parse one CSV line by splitting on commas,
keeping exactly the three-field lines. -/
def reparseCsvLine (l : Str) : Option CsvTriple :=
  match splitOnChar ',' l with
  | [d, c, r] => some (d, c, r)
  | _ => none

/-- Modelled from the spec: re-parse an exported CSV text by splitting into
lines, matching the header, and splitting each remaining line on commas. -/
def reparse_csv (s : Str) : List CsvTriple :=
  match splitOnChar '\n' s with
  | [] => []
  | hdr :: rest => if hdr = histHeader then rest.filterMap reparseCsvLine else []

/-- A CSV field that pandas writes verbatim and naive comma-splitting reads
back: it contains no comma and no newline (dates, currency codes and float
renderings all satisfy this). -/
def plainField (s : Str) : Prop := ',' ∉ s ∧ '\n' ∉ s

instance (s : Str) : Decidable (plainField s) := by
  unfold plainField
  infer_instance

/-! ## Helper functions used in theorem statements -/

/-- Number of records a day's outcome contributes: `len(rates)` on success,
zero on any failure. -/
def dayRecordCount : DayOutcome → Nat
  | DayOutcome.ok rates => rates.length
  | _ => 0

/-- The rates mapping a day's outcome carries (empty on failure). -/
def dayRates : DayOutcome → List (Str × ℚ)
  | DayOutcome.ok rates => rates
  | _ => []

/-- Did this day's HTTP request raise (taking the `except` branch)? -/
def dayRaised : DayOutcome → Bool
  | DayOutcome.netFail => true
  | _ => false

/-! ## Lemmas about the per-day loop -/

lemma assembleDays_records_length (l : List (Str × DayOutcome)) :
    (assembleDays l).1.length = (l.map (fun p => dayRecordCount p.2)).sum := by
  induction l with
  | nil => rfl
  | cons p rest ih =>
    rcases p with ⟨d, o⟩
    cases o <;> simp [assembleDays, processDay, dayRecordCount, ih]

lemma assembleDays_sleep_count (l : List (Str × DayOutcome)) :
    (assembleDays l).2.count HistEvent.sleep100ms
      = l.countP (fun p => !dayRaised p.2) := by
  induction l with
  | nil => rfl
  | cons p rest ih =>
    rcases p with ⟨d, o⟩
    cases o <;>
      simp [assembleDays, processDay, dayRaised, List.count_append, List.count_cons,
        List.countP_cons, ih]

lemma assembleDays_currency_mem (l : List (Str × DayOutcome)) (rec : HistRecord)
    (h : rec ∈ (assembleDays l).1) :
    ∃ p ∈ l, ∃ q ∈ dayRates p.2, rec.currency = q.1 := by
  induction l with
  | nil => simp [assembleDays] at h
  | cons p rest ih =>
    rcases p with ⟨d, o⟩
    rw [assembleDays] at h
    rcases List.mem_append.1 h with hl | hr
    · cases o with
      | netFail => simp [processDay] at hl
      | badPayload => simp [processDay] at hl
      | ok rates =>
        simp only [processDay, List.mem_map] at hl
        rcases hl with ⟨q, hq, rfl⟩
        exact ⟨(d, DayOutcome.ok rates), List.mem_cons_self _ _, q, hq, rfl⟩
    · rcases ih hr with ⟨p, hp, q, hq, hcur⟩
      exact ⟨p, List.mem_cons_of_mem _ hp, q, hq, hcur⟩

/-- Claim C1: over `windowDays` days, the assembled output's length equals the
sum of `len(rates)` over exactly the days whose requests succeeded with a
rates mapping; a failed day contributes zero records and processing continues
with the next day. -/
theorem hist_assembled_length (today : Date) (days : Nat) (net : List DayOutcome)
    (h : net.length = days) :
    (fetch_historical_data today days net).1.length = (net.map dayRecordCount).sum := by
  unfold fetch_historical_data
  rw [assembleDays_records_length]
  have hlen : (generate_date_list today days).length = days := by
    simp [generate_date_list]
  have hz : ((generate_date_list today days).zip net).map Prod.snd = net :=
    List.map_snd_zip _ _ (by omega)
  conv_rhs => rw [← hz]
  rw [List.map_map]
  rfl

/-- Witness for C1: the spec's concrete scenario — two successful days with
one EUR rate each, then a failing day, yield exactly 2 records. -/
theorem hist_assembled_length_witness :
    ([DayOutcome.ok [(['E','U','R'], 9/10)], DayOutcome.ok [(['E','U','R'], 91/100)],
      DayOutcome.netFail] : List DayOutcome).length = 3
  ∧ (fetch_historical_data ⟨2025, 1, 3⟩ 3
      [DayOutcome.ok [(['E','U','R'], 9/10)], DayOutcome.ok [(['E','U','R'], 91/100)],
       DayOutcome.netFail]).1.length
      = ([DayOutcome.ok [(['E','U','R'], 9/10)], DayOutcome.ok [(['E','U','R'], 91/100)],
          DayOutcome.netFail].map dayRecordCount).sum
  ∧ (fetch_historical_data ⟨2025, 1, 3⟩ 3
      [DayOutcome.ok [(['E','U','R'], 9/10)], DayOutcome.ok [(['E','U','R'], 91/100)],
       DayOutcome.netFail]).1.length = 2 :=
  ⟨rfl, hist_assembled_length ⟨2025, 1, 3⟩ 3 _ rfl, by decide⟩

/-- Claim C4: for a supported base and window in 1..30, the requested symbol
set is the fixed 8-currency list minus the base, the base is never among the
requested symbols, and (as long as each day's rates mapping only carries
requested symbols) no assembled record carries the base's code. -/
theorem no_base_in_result (base : Str) (today : Date) (days : Nat)
    (net : List DayOutcome) (hbase : base ∈ supportedBases)
    (_hdays : 1 ≤ days ∧ days ≤ 30)
    (hresp : ∀ o ∈ net, ∀ q ∈ dayRates o, q.1 ∈ target_currencies base) :
    target_currencies base = targetList.erase base
  ∧ base ∉ target_currencies base
  ∧ ∀ rec ∈ (fetch_historical_data today days net).1, rec.currency ≠ base := by
  have hmem : base ∈ targetList := by fin_cases hbase <;> decide
  have h1 : target_currencies base = targetList.erase base := by
    rw [target_currencies, if_pos hmem]
  have h2 : base ∉ target_currencies base := by
    rw [h1]; fin_cases hbase <;> decide
  refine ⟨h1, h2, ?_⟩
  intro rec hrec
  unfold fetch_historical_data at hrec
  obtain ⟨p, hp, q, hq, hcur⟩ := assembleDays_currency_mem _ rec hrec
  have hsnd : p.2 ∈ net := (List.of_mem_zip hp).2
  have hq1 : q.1 ∈ target_currencies base := hresp p.2 hsnd q hq
  rw [hcur]
  exact fun he => h2 (he ▸ hq1)

/-- Witness for C4: base USD, one day, a response carrying only EUR. -/
theorem no_base_in_result_witness :
    (['U','S','D'] : Str) ∈ supportedBases
  ∧ (target_currencies ['U','S','D'] = targetList.erase ['U','S','D']
     ∧ (['U','S','D'] : Str) ∉ target_currencies ['U','S','D']
     ∧ ∀ rec ∈ (fetch_historical_data ⟨2025, 1, 15⟩ 1
          [DayOutcome.ok [(['E','U','R'], 9/10)]]).1,
        rec.currency ≠ ['U','S','D']) :=
  ⟨by decide,
   no_base_in_result ['U','S','D'] ⟨2025, 1, 15⟩ 1 _ (by decide)
     ⟨by decide, by decide⟩ (by decide)⟩

/-- Claim C5 (counterexample): the delay is NOT inserted after every per-day
request — a run over one day whose request raises emits no sleep event at
all, because `time.sleep(0.1)` sits inside the `try` block and the `except`
branch `continue`s without sleeping. -/
theorem sleep_skipped_on_failure_cex :
    (fetch_historical_data ⟨2025, 1, 15⟩ 1 [DayOutcome.netFail]).2.count
        HistEvent.sleep100ms = 0
  ∧ ((generate_date_list ⟨2025, 1, 15⟩ 1).zip [DayOutcome.netFail]).length = 1 := by
  decide

/-- Claim C5 (amended): the ~100ms delay is inserted after each per-day
request that completed without raising (including days whose payload failed
to decode or lacked a rates key); a day whose request raised skips the
delay. -/
theorem sleep_after_completed_requests (today : Date) (days : Nat)
    (net : List DayOutcome) (h : net.length = days) :
    (fetch_historical_data today days net).2.count HistEvent.sleep100ms
      = net.countP (fun o => !dayRaised o) := by
  unfold fetch_historical_data
  rw [assembleDays_sleep_count]
  have hlen : (generate_date_list today days).length = days := by
    simp [generate_date_list]
  have hz : ((generate_date_list today days).zip net).map Prod.snd = net :=
    List.map_snd_zip _ _ (by omega)
  conv_rhs => rw [← hz]
  rw [List.countP_map]
  rfl

/-- Witness for C5 (amended): one completed day and one raising day yield
exactly one sleep event. -/
theorem sleep_after_completed_requests_witness :
    ([DayOutcome.ok [(['E','U','R'], 9/10)], DayOutcome.netFail] : List DayOutcome).length = 2
  ∧ (fetch_historical_data ⟨2025, 1, 15⟩ 2
      [DayOutcome.ok [(['E','U','R'], 9/10)], DayOutcome.netFail]).2.count
        HistEvent.sleep100ms
      = ([DayOutcome.ok [(['E','U','R'], 9/10)], DayOutcome.netFail] :
          List DayOutcome).countP (fun o => !dayRaised o) :=
  ⟨rfl, sleep_after_completed_requests ⟨2025, 1, 15⟩ 2 _ rfl⟩

/-- Claim C6: when the labeled rate table is absent from the document, the
parser returns an empty record sequence together with the logged
table-not-found warning, and no exception escapes (`Except.ok`). -/
theorem table_absent_returns_empty (soup : Soup) (h : soup.table = none) :
    parse_exchange_table soup = Except.ok ⟨[], [ParseWarn.tableNotFound]⟩ := by
  unfold parse_exchange_table
  rw [h]

/-- Witness for C6: the concrete table-less document. -/
theorem table_absent_returns_empty_witness :
    (⟨none⟩ : Soup).table = none
  ∧ parse_exchange_table ⟨none⟩ = Except.ok ⟨[], [ParseWarn.tableNotFound]⟩ :=
  ⟨rfl, table_absent_returns_empty ⟨none⟩ rfl⟩

/-- Claim C10: the live table parser is total at its interface — for every
document (missing table, short rows, cells whose text extraction raises),
`parse_exchange_table` returns a record sequence and never lets an exception
propagate. -/
theorem parse_table_total (soup : Soup) :
    ∃ out, parse_exchange_table soup = Except.ok out := by
  unfold parse_exchange_table
  cases htab : soup.table with
  | none => exact ⟨_, rfl⟩
  | some trs =>
    dsimp only
    rcases hp : parseRows (trs.drop 1) with ⟨recs, w, err⟩
    cases err with
    | none => exact ⟨⟨recs, w⟩, rfl⟩
    | some e => exact ⟨⟨[], w ++ [ParseWarn.errorCaught]⟩, rfl⟩

/-- Claim C3: with `retries=3`, an endpoint answering 503 twice then 200
succeeds on the 3rd attempt; an endpoint always answering 503 exhausts after
exactly 4 attempts with a network error; and a first status outside the
forcelist {429, 500, 502, 503, 504} is never retried (one attempt). -/
theorem retry_behavior :
    requests_get_with_retry (fun k => if k < 2 then 503 else 200) 3
      = (FetchResult.success 200, 3)
  ∧ requests_get_with_retry (fun _ => 503) 3 = (FetchResult.netError, 4)
  ∧ ∀ endpoint : Nat → Nat, endpoint 0 ∉ status_forcelist →
      (requests_get_with_retry endpoint 3).2 = 1 := by
  refine ⟨by decide, by decide, ?_⟩
  intro e h
  unfold requests_get_with_retry
  rw [retryLoop]
  rw [if_neg h]
  split <;> rfl

/-- Witness for C3's quantified conjunct: a 404 endpoint makes one attempt. -/
theorem retry_behavior_witness :
    (requests_get_with_retry (fun _ => 404) 3).2 = 1 :=
  retry_behavior.2.2 (fun _ => 404) (by decide)

/-! ## Lemmas about date formatting -/

lemma digitChar_isDigitChar (k : Nat) : isDigitChar (digitChar k) = true := by
  unfold digitChar
  have h : k % 10 < 10 := Nat.mod_lt _ (by norm_num)
  generalize k % 10 = m at h ⊢
  interval_cases m <;> decide

lemma isISO_format (d : Date) : isISO (format_date d) = true := by
  simp [format_date, pad4, pad2, isISO, digitChar_isDigitChar]

/-- Claim C7: for `windowDays ≥ 1` the generated list has exactly
`windowDays` dates, the entry at index `k` is `today` minus
`windowDays - 1 - k` days (so the list is oldest-first and ends at today
inclusive), adjacent entries are consecutive calendar days, and every entry
is rendered in `YYYY-MM-DD` shape. -/
theorem date_list_spec (today : Date) (days : Nat) (h : 1 ≤ days) :
    (generate_date_list today days).length = days
  ∧ (∀ k, k < days →
      (generate_date_list today days).getD k []
        = format_date (subDays today (days - 1 - k)))
  ∧ (generate_date_list today days).getD (days - 1) [] = format_date today
  ∧ (∀ k, k + 1 < days →
      subDays today (days - 1 - k) = predDate (subDays today (days - 1 - (k + 1))))
  ∧ (∀ s ∈ generate_date_list today days, isISO s = true) := by
  have hlen : (generate_date_list today days).length = days := by
    simp [generate_date_list]
  have hidx : ∀ k, k < days →
      (generate_date_list today days).getD k []
        = format_date (subDays today (days - 1 - k)) := by
    intro k hk
    have hk' : k < (generate_date_list today days).length := by omega
    rw [List.getD_eq_getElem _ _ hk']
    unfold generate_date_list
    rw [List.getElem_reverse]
    simp only [List.getElem_map, List.getElem_range, List.length_map, List.length_range]
  refine ⟨hlen, hidx, ?_, ?_, ?_⟩
  · have := hidx (days - 1) (by omega)
    rwa [show days - 1 - (days - 1) = 0 by omega] at this
  · intro k hk
    rw [show days - 1 - k = (days - 1 - (k + 1)) + 1 by omega]
    rfl
  · intro s hs
    unfold generate_date_list at hs
    rw [List.mem_reverse] at hs
    obtain ⟨i, _, rfl⟩ := List.mem_map.1 hs
    exact isISO_format _

/-! ## Lemmas about the live table row loop -/

lemma parseRows_pure (rows : List PyRow)
    (hpure : ∀ row ∈ rows, pureRow row = true) :
    (parseRows rows).1 = (rows.filter wellFormedRow).map recOfRow
  ∧ (parseRows rows).2.2 = none := by
  induction rows with
  | nil => exact ⟨rfl, rfl⟩
  | cons row rest ih =>
    have hrow := hpure row (List.mem_cons_self _ _)
    obtain ⟨ih1, ih2⟩ := ih (fun r hr => hpure r (List.mem_cons_of_mem _ hr))
    rw [pureRow, List.all_eq_true] at hrow
    by_cases h2 : 2 ≤ row.cells.length
    · have hc0mem : row.cells.getD 0 default ∈ row.cells := by
        rw [List.getD_eq_getElem _ _ (by omega)]
        exact List.getElem_mem _
      have hc1mem : row.cells.getD 1 default ∈ row.cells := by
        rw [List.getD_eq_getElem _ _ (by omega)]
        exact List.getElem_mem _
      obtain ⟨t0, ht0⟩ : ∃ t, (row.cells.getD 0 default).text = Except.ok t := by
        have h := hrow _ hc0mem
        rcases hx : (row.cells.getD 0 default).text with e | t
        · rw [hx] at h; simp at h
        · exact ⟨t, rfl⟩
      obtain ⟨t1, ht1⟩ : ∃ t, (row.cells.getD 1 default).text = Except.ok t := by
        have h := hrow _ hc1mem
        rcases hx : (row.cells.getD 1 default).text with e | t
        · rw [hx] at h; simp at h
        · exact ⟨t, rfl⟩
      have hct0 : cellText (row.cells.getD 0 default) = t0 := by
        unfold cellText
        rw [ht0]
      have hct1 : cellText (row.cells.getD 1 default) = t1 := by
        unfold cellText
        rw [ht1]
      simp only [parseRows, if_pos h2, ht0, ht1]
      cases hp : pyfloat (cleanRate t1) with
      | none =>
        have hw : wellFormedRow row = false := by
          unfold wellFormedRow
          rw [hct1, hp]
          simp
        simp only [List.filter_cons, hw, if_false, Bool.false_eq_true, ite_false]
        exact ⟨ih1, ih2⟩
      | some rate =>
        have hw : wellFormedRow row = true := by
          unfold wellFormedRow
          rw [hct1, hp]
          simp [h2]
        have hrec : recOfRow row = ⟨pystrip t0, rate⟩ := by
          unfold recOfRow
          rw [hct0, hct1, hp]
          rfl
        simp only [List.filter_cons, hw, ite_true, List.map_cons, hrec]
        exact ⟨by rw [ih1], ih2⟩
    · have hw : wellFormedRow row = false := by
        simp [wellFormedRow, h2]
      simp only [parseRows, if_neg h2, List.filter_cons, hw, Bool.false_eq_true, ite_false]
      exact ⟨ih1, ih2⟩

/-- Claim C2: for a document whose table's non-header rows all have at least
two cells (with non-raising text), the parser returns one record per row
whose rate cell parses (trimmed first cell as currency, parsed float as
rate, in document row order), skips the rows whose rate cell fails to
parse, always skips the header row, and raises nothing past the call. -/
theorem parse_skips_malformed (soup : Soup) (trs rest : List PyRow)
    (htable : soup.table = some trs) (hrest : trs.drop 1 = rest)
    (hpure : ∀ row ∈ rest, pureRow row = true) :
    (∃ warns, parse_exchange_table soup
        = Except.ok ⟨(rest.filter wellFormedRow).map recOfRow, warns⟩)
  ∧ ((rest.filter wellFormedRow).map recOfRow).length = rest.countP wellFormedRow := by
  obtain ⟨h1, h2⟩ := parseRows_pure rest hpure
  constructor
  · unfold parse_exchange_table
    rw [htable]
    dsimp only
    rw [hrest]
    rcases hp : parseRows rest with ⟨recs, warns, err⟩
    rw [hp] at h1 h2
    simp only at h1 h2
    subst h2
    exact ⟨warns, by rw [h1]⟩
  · simp [List.countP_eq_length_filter]

/-- Witness for C2: a table with header, two well-formed rows (USD 1.5,
EUR 0.9) and one malformed row interleaved yields exactly the two
well-formed records in order. -/
theorem parse_skips_malformed_witness :
    ((⟨some [⟨[]⟩,
        ⟨[⟨Except.ok ['U','S','D']⟩, ⟨Except.ok ['1','.','5']⟩]⟩,
        ⟨[⟨Except.ok ['B','A','D']⟩, ⟨Except.ok ['o','o','p','s']⟩]⟩,
        ⟨[⟨Except.ok ['E','U','R']⟩, ⟨Except.ok ['0','.','9']⟩]⟩]⟩ : Soup).table
      = some [⟨[]⟩,
        ⟨[⟨Except.ok ['U','S','D']⟩, ⟨Except.ok ['1','.','5']⟩]⟩,
        ⟨[⟨Except.ok ['B','A','D']⟩, ⟨Except.ok ['o','o','p','s']⟩]⟩,
        ⟨[⟨Except.ok ['E','U','R']⟩, ⟨Except.ok ['0','.','9']⟩]⟩])
  ∧ ((∃ warns, parse_exchange_table ⟨some [⟨[]⟩,
        ⟨[⟨Except.ok ['U','S','D']⟩, ⟨Except.ok ['1','.','5']⟩]⟩,
        ⟨[⟨Except.ok ['B','A','D']⟩, ⟨Except.ok ['o','o','p','s']⟩]⟩,
        ⟨[⟨Except.ok ['E','U','R']⟩, ⟨Except.ok ['0','.','9']⟩]⟩]⟩
        = Except.ok ⟨(([⟨[⟨Except.ok ['U','S','D']⟩, ⟨Except.ok ['1','.','5']⟩]⟩,
            ⟨[⟨Except.ok ['B','A','D']⟩, ⟨Except.ok ['o','o','p','s']⟩]⟩,
            ⟨[⟨Except.ok ['E','U','R']⟩, ⟨Except.ok ['0','.','9']⟩]⟩] :
              List PyRow).filter wellFormedRow).map recOfRow, warns⟩)
     ∧ ((([⟨[⟨Except.ok ['U','S','D']⟩, ⟨Except.ok ['1','.','5']⟩]⟩,
            ⟨[⟨Except.ok ['B','A','D']⟩, ⟨Except.ok ['o','o','p','s']⟩]⟩,
            ⟨[⟨Except.ok ['E','U','R']⟩, ⟨Except.ok ['0','.','9']⟩]⟩] :
              List PyRow).filter wellFormedRow).map recOfRow).length
        = ([⟨[⟨Except.ok ['U','S','D']⟩, ⟨Except.ok ['1','.','5']⟩]⟩,
            ⟨[⟨Except.ok ['B','A','D']⟩, ⟨Except.ok ['o','o','p','s']⟩]⟩,
            ⟨[⟨Except.ok ['E','U','R']⟩, ⟨Except.ok ['0','.','9']⟩]⟩] :
              List PyRow).countP wellFormedRow) :=
  ⟨rfl, parse_skips_malformed _ _ _ rfl rfl (by decide)⟩

/-- Claim C9 (counterexample): the live table parser enforces no invariant on
its records — a row with a two-letter first cell and a negative rate cell is
emitted unchanged, violating both the 3-letter-uppercase and the positivity
requirements of the LiveRate data model. -/
theorem live_invariant_cex :
    parse_exchange_table
        ⟨some [⟨[]⟩, ⟨[⟨Except.ok ['X','Y']⟩, ⟨Except.ok ['-','5']⟩]⟩]⟩
      = Except.ok ⟨[⟨['X','Y'], -5⟩], []⟩
  ∧ liveRateInvariant ⟨['X','Y'], -5⟩ = false := by
  decide

/-- Claim C9 (amended): the parser copies cells verbatim, so its records
satisfy the LiveRate invariant exactly when the source rows do: if every
well-formed row's trimmed first cell is a 3-letter uppercase code and its
parsed rate is positive, then every produced record satisfies the
invariant. -/
theorem live_invariant_conditional (soup : Soup) (trs rest : List PyRow)
    (htable : soup.table = some trs) (hrest : trs.drop 1 = rest)
    (hpure : ∀ row ∈ rest, pureRow row = true)
    (hgood : ∀ row ∈ rest, wellFormedRow row = true →
      liveRateInvariant (recOfRow row) = true) :
    ∀ out, parse_exchange_table soup = Except.ok out →
      ∀ r ∈ out.records, liveRateInvariant r = true := by
  intro out hout r hr
  obtain ⟨h1, h2⟩ := parseRows_pure rest hpure
  unfold parse_exchange_table at hout
  rw [htable] at hout
  dsimp only at hout
  rw [hrest] at hout
  rcases hp : parseRows rest with ⟨recs, warns, err⟩
  rw [hp] at h1 h2 hout
  simp only at h1 h2
  subst h2
  simp only [Except.ok.injEq] at hout
  rw [← hout] at hr
  simp only [h1, List.mem_map] at hr
  obtain ⟨row, hrowmem, rfl⟩ := hr
  rw [List.mem_filter] at hrowmem
  exact hgood row hrowmem.1 hrowmem.2

/-- Witness for C9 (amended): a table whose single data row is USD / 1.5
produces only invariant-satisfying records — here the record (USD, 3/2). -/
theorem live_invariant_conditional_witness :
    liveRateInvariant ⟨['U','S','D'], mkRat 15 10⟩ = true :=
  live_invariant_conditional
    ⟨some [⟨[]⟩, ⟨[⟨Except.ok ['U','S','D']⟩, ⟨Except.ok ['1','.','5']⟩]⟩]⟩
    _ _ rfl rfl (by decide) (by decide)
    ⟨[⟨['U','S','D'], mkRat 15 10⟩], []⟩ (by decide)
    ⟨['U','S','D'], mkRat 15 10⟩ (by decide)

/-! ## Lemmas about CSV splitting -/

lemma splitOnChar_append (sep : Char) (a b : Str) (h : sep ∉ a) :
    splitOnChar sep (a ++ sep :: b) = a :: splitOnChar sep b := by
  induction a with
  | nil => simp [splitOnChar]
  | cons c cs ih =>
    have hc : ¬ c = sep := fun he => h (he ▸ List.mem_cons_self _ _)
    have ih' := ih (fun hm => h (List.mem_cons_of_mem _ hm))
    simp only [List.cons_append, splitOnChar, if_neg hc, List.append_eq, ih']

lemma splitOnChar_no_sep (sep : Char) (a : Str) (h : sep ∉ a) :
    splitOnChar sep a = [a] := by
  induction a with
  | nil => rfl
  | cons c cs ih =>
    have hc : ¬ c = sep := fun he => h (he ▸ List.mem_cons_self _ _)
    have ih' := ih (fun hm => h (List.mem_cons_of_mem _ hm))
    simp only [splitOnChar, if_neg hc, ih']

lemma reparseCsvLine_render (r : CsvTriple)
    (h : plainField r.1 ∧ plainField r.2.1 ∧ plainField r.2.2) :
    reparseCsvLine (renderHistRow r) = some r := by
  rcases r with ⟨d, c, rr⟩
  obtain ⟨⟨hd, _⟩, ⟨hc, _⟩, ⟨hr, _⟩⟩ := h
  unfold reparseCsvLine renderHistRow
  rw [splitOnChar_append ',' d _ hd, splitOnChar_append ',' c _ hc,
    splitOnChar_no_sep ',' rr hr]

lemma renderHistRow_no_newline (r : CsvTriple)
    (h : plainField r.1 ∧ plainField r.2.1 ∧ plainField r.2.2) :
    '\n' ∉ renderHistRow r := by
  rcases r with ⟨d, c, rr⟩
  obtain ⟨⟨_, hd⟩, ⟨_, hc⟩, ⟨_, hr⟩⟩ := h
  unfold renderHistRow
  simp only [List.mem_append, List.mem_cons]
  rintro (hx | hx | hx | hx | hx)
  · exact hd hx
  · exact absurd hx (by decide)
  · exact hc hx
  · exact absurd hx (by decide)
  · exact hr hx

/-- Claim C8: exporting a historical record sequence to CSV (header
`Date,Currency,Rate`, one line per record, fields rendered at full
precision) and re-parsing by splitting on newlines and commas under the
matched header reproduces the original triples exactly — in particular the
rate field is reproduced verbatim, so the parsed-back rate equals the
original (stronger than the epsilon comparison the spec asks for). -/
theorem csv_round_trip (rows : List CsvTriple)
    (h : ∀ r ∈ rows, plainField r.1 ∧ plainField r.2.1 ∧ plainField r.2.2) :
    reparse_csv (convert_df_to_csv rows) = rows := by
  have hbody : ∀ rows : List CsvTriple,
      (∀ r ∈ rows, plainField r.1 ∧ plainField r.2.1 ∧ plainField r.2.2) →
      (splitOnChar '\n'
          (rows.foldr (fun r acc => renderHistRow r ++ '\n' :: acc) [])).filterMap
        reparseCsvLine = rows := by
    intro rows
    induction rows with
    | nil => intro _; rfl
    | cons r rest ih =>
      intro hall
      have hr := hall r (List.mem_cons_self _ _)
      have hrest := fun x hx => hall x (List.mem_cons_of_mem _ hx)
      simp only [List.foldr_cons]
      rw [splitOnChar_append '\n' (renderHistRow r) _ (renderHistRow_no_newline r hr)]
      simp only [List.filterMap_cons, reparseCsvLine_render r hr]
      rw [ih hrest]
  unfold reparse_csv convert_df_to_csv
  rw [splitOnChar_append '\n' histHeader _ (by decide)]
  dsimp only
  rw [if_pos rfl]
  exact hbody rows h

/-- Witness for C8: a concrete two-record export round-trips. -/
theorem csv_round_trip_witness :
    (∀ r ∈ ([(['d','1'], ['E','U','R'], ['0','.','9']),
             (['d','2'], ['J','P','Y'], ['1','4','6','.','2'])] : List CsvTriple),
       plainField r.1 ∧ plainField r.2.1 ∧ plainField r.2.2)
  ∧ reparse_csv (convert_df_to_csv
      [(['d','1'], ['E','U','R'], ['0','.','9']),
       (['d','2'], ['J','P','Y'], ['1','4','6','.','2'])])
      = [(['d','1'], ['E','U','R'], ['0','.','9']),
         (['d','2'], ['J','P','Y'], ['1','4','6','.','2'])] :=
  ⟨by decide, csv_round_trip _ (by decide)⟩

/-- Witness for C7: a concrete three-day window ending 2025-01-15. -/
theorem date_list_spec_witness :
    (1 ≤ 3)
  ∧ ((generate_date_list ⟨2025, 1, 15⟩ 3).length = 3
     ∧ (∀ k, k < 3 →
         (generate_date_list ⟨2025, 1, 15⟩ 3).getD k []
           = format_date (subDays ⟨2025, 1, 15⟩ (3 - 1 - k)))
     ∧ (generate_date_list ⟨2025, 1, 15⟩ 3).getD (3 - 1) []
         = format_date ⟨2025, 1, 15⟩
     ∧ (∀ k, k + 1 < 3 →
         subDays ⟨2025, 1, 15⟩ (3 - 1 - k)
           = predDate (subDays ⟨2025, 1, 15⟩ (3 - 1 - (k + 1))))
     ∧ (∀ s ∈ generate_date_list ⟨2025, 1, 15⟩ 3, isISO s = true)) :=
  ⟨by decide, date_list_spec ⟨2025, 1, 15⟩ 3 (by decide)⟩

end CurrencyDashboard
